import Mathlib

/-!
Verification development for the kernel virtual-memory mapper
(`kernel/memory/src/paging/mapper.rs`) and the task subsystem
(`src/task/mod.rs`) of a small x86-64 OS kernel.

The mapper and task logic is translated from the Rust source.  The data
layer that the source imports from sibling crates (pages, frames, page-table
entries, `Table::next_table_create`, the frame and virtual-page allocators,
and the architecture primitives) is not part of the source tree and is
modelled from the specification; each such definition carries a doc comment
saying so.

Modelling conventions:
  - Page numbers and frame numbers are plain `Nat`s.
  - A page-table entry is a pair of a pointed-to frame number and a flag
    bitmask (the spec packs both into a 64-bit word; the observable access
    functions `pointed_frame`, `flags`, `is_unused`, `set`, `set_unused`
    are preserved).
  - The four-level table tree is modelled by four total entry maps keyed by
    the index path from the root; creating a table zeroes all entries below
    its key, matching `Table::zero` on a freshly allocated table frame.
  - Rust panics (`expect`, `assert!` inside table creation) are modelled as
    `Except.error`, so `Except.ok` means the Rust call returns normally.
  - TLB flushes and the optional shootdown broadcast have no observable
    effect on the modelled state and are noted by comments only.
-/

namespace Theseus

/-- Modelled from the spec: page-table entry flag bit positions
(PRESENT=bit 0, WRITABLE=bit 1, HUGE=bit 7, NO_EXECUTE=bit 63). -/
def PRESENT : Nat := 1

/-- Modelled from the spec: the WRITABLE flag bit. -/
def WRITABLE : Nat := 2

/-- Modelled from the spec: the HUGE flag bit. -/
def HUGE : Nat := 128

/-- Modelled from the spec: the NO_EXECUTE flag bit. -/
def NO_EXECUTE : Nat := 2 ^ 63

/-- Modelled from the spec: `EntryFlags::is_writable` tests the WRITABLE bit. -/
def is_writable (f : Nat) : Bool := f.testBit 1

/-- Modelled from the spec: `EntryFlags::is_huge` tests the HUGE bit. -/
def is_huge (f : Nat) : Bool := f.testBit 7

/-- Modelled from the spec: `flags.set(NO_EXECUTE, false)` clears bit 63.
Flag masks are 64-bit words, so clearing the top bit is reduction mod 2^63. -/
def clearNX (f : Nat) : Nat := f % 2 ^ 63

/-- Modelled from the spec: a page-table entry holds a physical frame number
(address bits 12..51 of the 64-bit word) and the flag bits.  The all-zero
word is the unused entry. -/
structure Entry where
  frame : Nat
  fl : Nat
deriving DecidableEq

/-- Modelled from the spec: the zero (unused) entry. -/
def Entry.unused : Entry := ⟨0, 0⟩

/-- Modelled from the spec: `Entry::is_unused` checks for the zero word. -/
def Entry.is_unused (e : Entry) : Bool := e = Entry.unused

/-- Modelled from the spec: an entry is present when its PRESENT bit is set. -/
def entryPresent (e : Entry) : Bool := e.fl.testBit 0

/-- Modelled from the spec: `Entry::pointed_frame` returns the stored frame
when the entry is PRESENT, and `None` otherwise. -/
def pointed_frame (e : Entry) : Option Nat :=
  if entryPresent e then some e.frame else none

/-- Modelled from the spec: `Table::next_table` descends through an entry
exactly when it is PRESENT and not HUGE. -/
def nextOk (e : Entry) : Bool := entryPresent e && !is_huge e.fl

/-- Modelled from the spec: the four 9-bit indices of a virtual page number
(`p4 = (va >> 39) & 0x1FF` on the address, i.e. `number >> 27` on the page
number, and so on down to `p1 = number & 0x1FF`). -/
def p4i (p : Nat) : Nat := p / 2 ^ 27 % 512

/-- Modelled from the spec: the P3 index of a page number. -/
def p3i (p : Nat) : Nat := p / 2 ^ 18 % 512

/-- Modelled from the spec: the P2 index of a page number. -/
def p2i (p : Nat) : Nat := p / 2 ^ 9 % 512

/-- Modelled from the spec: the P1 index of a page number. -/
def p1i (p : Nat) : Nat := p % 512

/-- Index path of a page down the four levels. -/
def pageTup (p : Nat) : Nat × Nat × Nat × Nat := (p4i p, p3i p, p2i p, p1i p)

/-- Modelled from the spec: `Page::start_address` (page size 4096). -/
def page_start_address (p : Nat) : Nat := p * 4096

/-- Modelled from the spec: `Frame::start_address`. -/
def frame_start_address (f : Nat) : Nat := f * 4096

/-- Modelled from the spec: `PageRange` is a closed inclusive range of page
numbers; `stop` is the field the source calls `end`. -/
structure PageRange where
  start : Nat
  stop : Nat
deriving DecidableEq

/-- Modelled from the spec: number of pages of an inclusive range
(zero when the range is empty, i.e. `stop < start`). -/
def PageRange.size (r : PageRange) : Nat := r.stop + 1 - r.start

/-- Modelled from the spec: iteration order of a `PageRange`. -/
def PageRange.toList (r : PageRange) : List Nat :=
  (List.range r.size).map (r.start + ·)

/-- Modelled from the spec: the empty page range. -/
def PageRange.empty : PageRange := ⟨1, 0⟩

/-- Modelled from the spec: `FrameRange` is an inclusive range of frame
numbers with the same shape as `PageRange`. -/
abbrev FrameRange := PageRange

/-- Modelled from the spec: `AllocatedPages`, the owning token for a
virtual-page reservation. -/
structure AllocatedPages where
  pages : PageRange
deriving DecidableEq

/-- From `mapper.rs`: the page range of a `MappedPages`, either owned
`AllocatedPages` or a bare `PageRange`. -/
inductive MaybeAllocatedPages where
  | Allocated (ap : AllocatedPages)
  | NotAllocated (pr : PageRange)
deriving DecidableEq

/-- From `mapper.rs`: `MaybeAllocatedPages::is_allocated`. -/
def MaybeAllocatedPages.is_allocated : MaybeAllocatedPages → Bool
  | .Allocated _ => true
  | .NotAllocated _ => false

/-- From `mapper.rs`: the `Deref` of `MaybeAllocatedPages` to its range. -/
def MaybeAllocatedPages.range : MaybeAllocatedPages → PageRange
  | .Allocated ap => ap.pages
  | .NotAllocated pr => pr

/-- From `mapper.rs`: `MappedPages` holds the root-table frame it was mapped
under, its page range, and the flags used at map time. -/
structure MappedPages where
  page_table_p4 : Nat
  pages : MaybeAllocatedPages
  flags : Nat
deriving DecidableEq

/-- Page range covered by a `MappedPages`. -/
def MappedPages.range (mp : MappedPages) : PageRange := mp.pages.range

/-- From `mapper.rs`: `size_in_pages` of a `MappedPages`. -/
def MappedPages.size_in_pages (mp : MappedPages) : Nat := mp.range.size

/-- From `mapper.rs`: `size_in_bytes` of a `MappedPages`. -/
def MappedPages.size_in_bytes (mp : MappedPages) : Nat := mp.size_in_pages * 4096

/-- From `mapper.rs`: start address of the mapping. -/
def MappedPages.start_address (mp : MappedPages) : Nat :=
  page_start_address mp.range.start

/-- The four-level page-table tree: each level maps an index path from the
root to the 64-bit entry stored there.  Entries below a not-yet-created
table are only ever read after the table is created, which zeroes them. -/
structure PT where
  p4e : Nat → Entry
  p3e : Nat × Nat → Entry
  p2e : Nat × Nat × Nat → Entry
  p1e : Nat × Nat × Nat × Nat → Entry

/-- Machine state threaded through the mapper operations: the active page
table, the frame-allocator stream (modelled from the spec as a list of free
frame numbers), the virtual-page allocator bump pointer (modelled from the
spec), the byte contents of virtual memory, the currently installed P4
frame, and whether the global frame-allocator reference is obtainable. -/
structure MachineState where
  pt : PT
  frames : List Nat
  nextFreePage : Nat
  mem : Nat → Nat
  current_p4 : Nat
  fa_available : Bool

/-- Modelled from the spec: `allocate_frame` pops the next free frame. -/
def allocate_frame (st : MachineState) : Option (Nat × MachineState) :=
  match st.frames with
  | [] => none
  | f :: rest => some (f, { st with frames := rest })

/-- Modelled from the spec: the virtual-page allocator `allocate_pages(n)`
returns `n` fresh consecutive pages (bump allocation). -/
def allocate_pages (st : MachineState) (n : Nat) : Option (AllocatedPages × MachineState) :=
  some (⟨⟨st.nextFreePage, st.nextFreePage + n - 1⟩⟩,
        { st with nextFreePage := st.nextFreePage + n })

/-- Modelled from the spec: `next_table_create` for the P4 entry at `i4`:
follow an existing table, refuse a HUGE entry, or allocate a frame, install
`top | PRESENT | WRITABLE` and zero the new P3 table.  The trailing check
models the `next_table_mut(index).unwrap()` that follows creation. -/
def create_p3 (st : MachineState) (i4 : Nat) (top : Nat) : Except String MachineState :=
  let e := st.pt.p4e i4
  if nextOk e then .ok st
  else if is_huge e.fl then .error "mapping code does not support huge pages"
  else
    match st.frames with
    | [] => .error "no frames available"
    | f :: rest =>
      let newE : Entry := ⟨f, top ||| PRESENT ||| WRITABLE⟩
      let pt1 : PT :=
        { p4e := fun j => if j = i4 then newE else st.pt.p4e j
          p3e := fun t => if t.1 = i4 then Entry.unused else st.pt.p3e t
          p2e := st.pt.p2e
          p1e := st.pt.p1e }
      if nextOk newE then .ok { st with pt := pt1, frames := rest }
      else .error "mapping code does not support huge pages"

/-- Modelled from the spec: `next_table_create` for the P3 entry at
`(i4, i3)`, creating the P2 table below it. -/
def create_p2 (st : MachineState) (i4 i3 : Nat) (top : Nat) : Except String MachineState :=
  let e := st.pt.p3e (i4, i3)
  if nextOk e then .ok st
  else if is_huge e.fl then .error "mapping code does not support huge pages"
  else
    match st.frames with
    | [] => .error "no frames available"
    | f :: rest =>
      let newE : Entry := ⟨f, top ||| PRESENT ||| WRITABLE⟩
      let pt1 : PT :=
        { p4e := st.pt.p4e
          p3e := fun t => if t = (i4, i3) then newE else st.pt.p3e t
          p2e := fun t => if t.1 = i4 ∧ t.2.1 = i3 then Entry.unused else st.pt.p2e t
          p1e := st.pt.p1e }
      if nextOk newE then .ok { st with pt := pt1, frames := rest }
      else .error "mapping code does not support huge pages"

/-- Modelled from the spec: `next_table_create` for the P2 entry at
`(i4, i3, i2)`, creating the P1 table below it. -/
def create_p1 (st : MachineState) (i4 i3 i2 : Nat) (top : Nat) : Except String MachineState :=
  let e := st.pt.p2e (i4, i3, i2)
  if nextOk e then .ok st
  else if is_huge e.fl then .error "mapping code does not support huge pages"
  else
    match st.frames with
    | [] => .error "no frames available"
    | f :: rest =>
      let newE : Entry := ⟨f, top ||| PRESENT ||| WRITABLE⟩
      let pt1 : PT :=
        { p4e := st.pt.p4e
          p3e := st.pt.p3e
          p2e := fun t => if t = (i4, i3, i2) then newE else st.pt.p2e t
          p1e := fun t => if t.1 = i4 ∧ t.2.1 = i3 ∧ t.2.2.1 = i2 then Entry.unused
                          else st.pt.p1e t }
      if nextOk newE then .ok { st with pt := pt1, frames := rest }
      else .error "mapping code does not support huge pages"

/-- Write one P1 entry. -/
def setP1 (st : MachineState) (t : Nat × Nat × Nat × Nat) (e : Entry) : MachineState :=
  { st with pt := { st.pt with p1e := fun u => if u = t then e else st.pt.p1e u } }

/-- Can `next_table_mut` walk from P4 down to the P1 table of page `p`?
(each of the three upper entries must be PRESENT and not HUGE). -/
def walkOk (pt : PT) (p : Nat) : Bool :=
  nextOk (pt.p4e (p4i p)) && nextOk (pt.p3e (p4i p, p3i p))
    && nextOk (pt.p2e (p4i p, p3i p, p2i p))

/-- From `mapper.rs` (`Mapper::translate_page`): walk the four levels; on
the normal path return the P1 entry frame; otherwise try the huge-page
fallback (1 GiB at P3, 2 MiB at P2).  The alignment `assert!`s of the
source are comments here: they are never reached under the hypotheses of
the theorems below. -/
def translate_page (pt : PT) (p : Nat) : Option Nat :=
  let i4 := p4i p
  let i3 := p3i p
  let i2 := p2i p
  let i1 := p1i p
  let normal : Option Nat :=
    if nextOk (pt.p4e i4) && nextOk (pt.p3e (i4, i3)) && nextOk (pt.p2e (i4, i3, i2)) then
      pointed_frame (pt.p1e (i4, i3, i2, i1))
    else none
  let hugeRes : Option Nat :=
    if nextOk (pt.p4e i4) then
      let p3entry := pt.p3e (i4, i3)
      if entryPresent p3entry && is_huge p3entry.fl then
        -- source asserts 1 GiB alignment of the start frame here
        some (p3entry.frame + i2 * 512 + i1)
      else if nextOk p3entry then
        let p2entry := pt.p2e (i4, i3, i2)
        if entryPresent p2entry && is_huge p2entry.fl then
          -- source asserts 2 MiB alignment of the start frame here
          some (p2entry.frame + i1)
        else none
      else none
    else none
  match normal with
  | some fr => some fr
  | none => hugeRes

/-- From `mapper.rs` (`Mapper::translate`): split the address into page and
offset and add the offset to the frame start. -/
def translate (pt : PT) (va : Nat) : Option Nat :=
  (translate_page pt (va / 4096)).map (fun fr => frame_start_address fr + va % 4096)

/-- From `mapper.rs`: the per-page loop of `Mapper::internal_map`: allocate
a frame, create the three lower tables with the top-level flags, fail if
the P1 slot is occupied, else install `(frame, flags | PRESENT)`.  The
source error string for frame exhaustion contains an apostrophe, omitted
here. -/
def internal_map_loop (st : MachineState) (l : List Nat) (flags top : Nat) :
    Except String Unit × MachineState :=
  match l with
  | [] => (.ok (), st)
  | p :: rest =>
    match allocate_frame st with
    | none => (.error "Mapper::internal_map(): couldnt allocate new frame, out of memory!", st)
    | some (frame, st1) =>
      match create_p3 st1 (p4i p) top with
      | .error e => (.error e, st1)
      | .ok st2 =>
        match create_p2 st2 (p4i p) (p3i p) top with
        | .error e => (.error e, st2)
        | .ok st3 =>
          match create_p1 st3 (p4i p) (p3i p) (p2i p) top with
          | .error e => (.error e, st3)
          | .ok st4 =>
            if (st4.pt.p1e (pageTup p)).is_unused then
              internal_map_loop (setP1 st4 (pageTup p) ⟨frame, flags ||| PRESENT⟩) rest flags top
            else (.error "page was already in use", st4)

/-- From `mapper.rs` (`Mapper::internal_map`): map each page of the range to
a freshly allocated frame; on success wrap the range in a `MappedPages`
carrying the target P4 frame and the requested flags. -/
def internal_map (st : MachineState) (tp4 : Nat) (pages : PageRange) (flags : Nat) :
    Except String MappedPages × MachineState :=
  let top := clearNX flags
  match internal_map_loop st pages.toList flags top with
  | (.error e, st1) => (.error e, st1)
  | (.ok (), st1) => (.ok ⟨tp4, .NotAllocated pages, flags⟩, st1)

/-- From `mapper.rs`: the per-(page, frame) loop of `Mapper::internal_map_to`. -/
def internal_map_to_loop (st : MachineState) (l : List (Nat × Nat)) (flags top : Nat) :
    Except String Unit × MachineState :=
  match l with
  | [] => (.ok (), st)
  | (p, frame) :: rest =>
    match create_p3 st (p4i p) top with
    | .error e => (.error e, st)
    | .ok st2 =>
      match create_p2 st2 (p4i p) (p3i p) top with
      | .error e => (.error e, st2)
      | .ok st3 =>
        match create_p1 st3 (p4i p) (p3i p) (p2i p) top with
        | .error e => (.error e, st3)
        | .ok st4 =>
          if (st4.pt.p1e (pageTup p)).is_unused then
            internal_map_to_loop (setP1 st4 (pageTup p) ⟨frame, flags ||| PRESENT⟩) rest flags top
          else (.error "page was already in use", st4)

/-- From `mapper.rs` (`Mapper::internal_map_to`): check the two counts
match before touching any table, then walk pages and frames in lockstep. -/
def internal_map_to (st : MachineState) (tp4 : Nat) (pages : PageRange) (frames : FrameRange)
    (flags : Nat) : Except String MappedPages × MachineState :=
  let top := clearNX flags
  if pages.size ≠ frames.size then
    (.error "map_to_internal(): page count must equal frame count", st)
  else
    match internal_map_to_loop st (pages.toList.zip frames.toList) flags top with
    | (.error e, st1) => (.error e, st1)
    | (.ok (), st1) => (.ok ⟨tp4, .NotAllocated pages, flags⟩, st1)

/-- From `mapper.rs` (`Mapper::map`): map one page to a fresh frame. -/
def map (st : MachineState) (tp4 : Nat) (p : Nat) (flags : Nat) :
    Except String MappedPages × MachineState :=
  internal_map st tp4 ⟨p, p⟩ flags

/-- From `mapper.rs` (`Mapper::map_allocated_pages`): map an owned page
range to fresh frames; the result records the `AllocatedPages`. -/
def map_allocated_pages (st : MachineState) (tp4 : Nat) (ap : AllocatedPages) (flags : Nat) :
    Except String MappedPages × MachineState :=
  match internal_map st tp4 ap.pages flags with
  | (.ok mp, st1) => (.ok { mp with pages := .Allocated ap }, st1)
  | (.error e, st1) => (.error e, st1)

/-- From `mapper.rs` (`Mapper::map_allocated_pages_to`): map an owned page
range to the given frames; the result records the `AllocatedPages`. -/
def map_allocated_pages_to (st : MachineState) (tp4 : Nat) (ap : AllocatedPages)
    (frames : FrameRange) (flags : Nat) : Except String MappedPages × MachineState :=
  match internal_map_to st tp4 ap.pages frames flags with
  | (.ok mp, st1) => (.ok { mp with pages := .Allocated ap }, st1)
  | (.error e, st1) => (.error e, st1)

/-- From `mapper.rs` (`MappedPages::merge`): check same P4 frame, same
flags, contiguity, and matching allocated discriminant, in that order; on
failure hand `other` back; on success extend the range of `self` (the
source `mem::forget`s `other`, so its drop never runs, and no page-table
state is touched by `merge` at all, as this purely functional type shows). -/
def merge (self other : MappedPages) : Except (String × MappedPages) MappedPages :=
  let previous_end := self.range.stop
  let err : Option String :=
    if other.page_table_p4 ≠ self.page_table_p4 then
      some "mappings were mapped with different page tables"
    else if other.flags ≠ self.flags then
      some "mappings were mapped with different flags"
    else if other.range.start ≠ previous_end + 1 then
      some "mappings were not contiguous in virtual memory"
    else if other.pages.is_allocated ≠ self.pages.is_allocated then
      some "some mappings were mapped to AllocatedPages, while others were not"
    else none
  match err with
  | some e => .error (e, other)
  | none =>
    let new_page_range : PageRange := ⟨self.range.start, other.range.stop⟩
    let new_pages :=
      if self.pages.is_allocated then MaybeAllocatedPages.Allocated ⟨new_page_range⟩
      else MaybeAllocatedPages.NotAllocated new_page_range
    .ok { self with pages := new_pages }

/-- From `mapper.rs` (`MappedPages::as_slice`): bounds-check only; returns
the start address of the slice (the raw pointer of the source). -/
def as_slice (mp : MappedPages) (sizeT byte_offset length : Nat) : Except String Nat :=
  if byte_offset + length * sizeT > mp.size_in_bytes then
    .error "requested slice length and offset would not fit within the MappedPages bounds"
  else .ok (mp.start_address + byte_offset)

/-- From `mapper.rs` (`MappedPages::as_type_mut`): check WRITABLE first,
then bounds; the handle and machine state are returned so that the theorem
about the non-writable path can state that nothing is mutated. -/
def as_type_mut (st : MachineState) (mp : MappedPages) (sizeT offset : Nat) :
    Except String Nat × MappedPages × MachineState :=
  if ¬ is_writable mp.flags then
    (.error "as_type_mut(): MappedPages were not writable", mp, st)
  else if offset + sizeT > mp.size_in_bytes then
    (.error "requested type and offset would not fit within the MappedPages bounds", mp, st)
  else (.ok (mp.start_address + offset), mp, st)

/-- From `mapper.rs` (`MappedPages::as_slice_mut`): check WRITABLE first,
then bounds. -/
def as_slice_mut (st : MachineState) (mp : MappedPages) (sizeT byte_offset length : Nat) :
    Except String Nat × MappedPages × MachineState :=
  if ¬ is_writable mp.flags then
    (.error "as_slice_mut(): MappedPages were not writable", mp, st)
  else if byte_offset + length * sizeT > mp.size_in_bytes then
    (.error "requested slice length and offset would not fit within the MappedPages bounds", mp, st)
  else (.ok (mp.start_address + byte_offset), mp, st)

/-- From `mapper.rs`: the per-page loop of `MappedPages::remap`: walk to
the P1 table (huge pages refused), keep the pointed frame, rewrite the
entry with `new_flags | PRESENT`, flush the TLB entry (no modelled effect). -/
def remapLoop (st : MachineState) (l : List Nat) (new_flags : Nat) :
    Except String Unit × MachineState :=
  match l with
  | [] => (.ok (), st)
  | p :: rest =>
    if walkOk st.pt p then
      match pointed_frame (st.pt.p1e (pageTup p)) with
      | none => (.error "remap(): page not mapped", st)
      | some fr => remapLoop (setP1 st (pageTup p) ⟨fr, new_flags ||| PRESENT⟩) rest new_flags
    else (.error "mapping code does not support huge pages", st)

/-- From `mapper.rs` (`MappedPages::remap`): empty ranges and unchanged
flags return immediately; otherwise rewrite every P1 entry and finally
update the stored flags. -/
def remap (st : MachineState) (mp : MappedPages) (new_flags : Nat) :
    Except String Unit × MappedPages × MachineState :=
  if mp.size_in_pages = 0 then (.ok (), mp, st)
  else if new_flags = mp.flags then (.ok (), mp, st)
  else
    match remapLoop st mp.range.toList new_flags with
    | (.error e, st1) => (.error e, mp, st1)
    | (.ok (), st1) => (.ok (), { mp with flags := new_flags }, st1)

/-- From `mapper.rs`: the per-page loop of `MappedPages::unmap`: walk to
the P1 table (huge pages refused), require a pointed frame, set the entry
unused, flush the TLB entry (no modelled effect).  The frame is recorded
but not returned to the allocator (source TODO). -/
def unmapLoop (st : MachineState) (l : List Nat) : Except String Unit × MachineState :=
  match l with
  | [] => (.ok (), st)
  | p :: rest =>
    if walkOk st.pt p then
      match pointed_frame (st.pt.p1e (pageTup p)) with
      | none => (.error "unmap(): page not mapped", st)
      | some _ => unmapLoop (setP1 st (pageTup p) Entry.unused) rest
    else (.error "mapping code does not support huge pages", st)

/-- From `mapper.rs` (`MappedPages::unmap`): no-op on an empty range,
otherwise clear every P1 entry of the range. -/
def unmap (st : MachineState) (mp : MappedPages) : Except String Unit × MachineState :=
  if mp.size_in_pages = 0 then (.ok (), st)
  else unmapLoop st mp.range.toList

/-- From `mapper.rs` (`impl Drop for MappedPages`): empty handles do
nothing; a mapper built from the current P4 must match the handle P4 and
the frame allocator must be obtainable, otherwise the drop logs and
returns; unmap errors are logged and swallowed. -/
def dropMappedPages (st : MachineState) (mp : MappedPages) : MachineState :=
  if mp.size_in_pages = 0 then st
  else if st.current_p4 ≠ mp.page_table_p4 then st
  else if st.fa_available = false then st
  else (unmap st mp).2

/-- From `mapper.rs` (`MappedPages::deep_copy`): allocate an equal-sized
page range, map it with the desired flags forced WRITABLE, byte-copy the
contents through the slice views, and remap when `needs_remapping` —
which the source computes as `new_flags.is_writable()`. -/
def deep_copy (st : MachineState) (tp4 : Nat) (mp : MappedPages) (new_flags? : Option Nat) :
    Except String MappedPages × MachineState :=
  let size_in_pages := mp.size_in_pages
  match allocate_pages st size_in_pages with
  | none => (.error "Couldnt allocate_pages()", st)
  | some (new_pages, st1) =>
    let new_flags := new_flags?.getD mp.flags
    let needs_remapping := is_writable new_flags
    match map_allocated_pages st1 tp4 new_pages (new_flags ||| WRITABLE) with
    | (.error e, st2) => (.error e, st2)
    | (.ok new_mapped_pages, st2) =>
      match as_slice mp 4096 0 size_in_pages with
      | .error e => (.error e, st2)
      | .ok source =>
        match as_slice_mut st2 new_mapped_pages 4096 0 size_in_pages with
        | (.error e, _, st3) => (.error e, st3)
        | (.ok dest, new_mapped_pages, st3) =>
          let st4 : MachineState :=
            { st3 with mem := fun a =>
                if dest ≤ a ∧ a < dest + size_in_pages * 4096 then st3.mem (source + (a - dest))
                else st3.mem a }
          if needs_remapping then
            match remap st4 new_mapped_pages new_flags with
            | (.error e, _, st5) => (.error e, st5)
            | (.ok (), new_mapped_pages, st5) => (.ok new_mapped_pages, st5)
          else (.ok new_mapped_pages, st4)

/-- From `task/mod.rs`: the task lifecycle states. -/
inductive RunState where
  | INITING
  | RUNNABLE
  | RUNNING
  | BLOCKED
  | EXITED (code : Int)
deriving DecidableEq

/-- Modelled from the spec: `ArchTaskState` abstracted to the two fields
the translated code reads and writes: the page-table base register value
and the saved stack pointer.  `ArchTaskState::new()` zeroes them. -/
structure ArchTaskState where
  page_table : Nat
  stack_ptr : Nat
deriving DecidableEq

/-- Modelled from the spec: `ArchTaskState::new`. -/
def ArchTaskState.new : ArchTaskState := ⟨0, 0⟩

/-- From `task/mod.rs`: a `Task`.  The kernel stack is a byte list; its
runtime base address is supplied as an oracle where needed. -/
structure Task where
  id : Nat
  runstate : RunState
  arch_state : ArchTaskState
  kstack : Option (List Nat)
  name : String
deriving DecidableEq

/-- From `task/mod.rs` (`Task::new`): INITING, fresh arch state, no stack. -/
def Task.new (task_id : Nat) : Task :=
  { id := task_id
    runstate := RunState.INITING
    arch_state := ArchTaskState.new
    kstack := none
    name := "task" ++ toString task_id }

/-- Process-wide task globals: the `CURRENT_TASK` atomic and the
`CONTEXT_SWITCH_LOCK` boolean. -/
structure TaskGlobals where
  current_task : Nat
  context_switch_lock : Bool
deriving DecidableEq

/-- Observable ordering of the side effects of `context_switch`; the final
register swap (`ArchTaskState::switch_to`, out of scope) is an event. -/
inductive SwitchEvent where
  | acquireLock
  | storeCurrentTask (id : Nat)
  | releaseLock
  | switchRegisters
deriving DecidableEq

/-- From `task/mod.rs` (`Task::context_switch`): spin-acquire the global
lock (always acquired here: single CPU), assert `next` is neither BLOCKED
nor RUNNING (assertion failure modelled as `none`), set the two runstates,
publish `next.id` as current, release the lock, and only then swap
registers.  The returned event list records that order. -/
def context_switch (current next : Task) (g : TaskGlobals) :
    Option (Task × Task × TaskGlobals × List SwitchEvent) :=
  if next.runstate = RunState.BLOCKED then none
  else if next.runstate = RunState.RUNNING then none
  else
    let current1 := { current with runstate := RunState.RUNNABLE }
    let next1 := { next with runstate := RunState.RUNNING }
    let g1 := { g with current_task := next1.id }
    let g2 := { g1 with context_switch_lock := false }
    some (current1, next1, g2,
      [SwitchEvent.acquireLock, SwitchEvent.storeCurrentTask next1.id,
       SwitchEvent.releaseLock, SwitchEvent.switchRegisters])

/-- From `task/mod.rs`: the task registry (the `BTreeMap` is modelled as a
total lookup function) and the id counter. -/
structure TaskList where
  list : Nat → Option Task
  taskid_counter : Nat

/-- From `task/mod.rs`: `MAX_NR_TASKS = usize::max_value() - 1`. -/
def MAX_NR_TASKS : Nat := 2 ^ 64 - 2

/-- From `task/mod.rs`: the free-id search loop of `new_task`: advance the
counter (wrapping as a 64-bit usize would) until an unoccupied id is found
or the scan returns to its starting point.  The fuel argument only bounds
the recursion; `2^64` steps always suffice to reach either exit. -/
def find_free_id (occupied : Nat → Bool) : Nat → Nat → Nat → Option Nat
  | _, _, 0 => none
  | counter, starting, fuel + 1 =>
    if occupied counter then
      let c := (counter + 1) % 2 ^ 64
      if starting = c then none
      else find_free_id occupied c starting fuel
    else some counter

/-- From `task/mod.rs` (`TaskList::new_task`): wrap the counter below
`MAX_NR_TASKS`, scan for a free id, insert a fresh INITING task. -/
def new_task (tl : TaskList) : Except String (Task × TaskList) :=
  let counter := if tl.taskid_counter ≥ MAX_NR_TASKS then 1 else tl.taskid_counter
  match find_free_id (fun i => (tl.list i).isSome) counter counter (2 ^ 64) with
  | none => .error "unable to find free id for new task"
  | some new_id =>
    let t := Task.new new_id
    let tl1 : TaskList :=
      { list := fun i => if i = new_id then some t else tl.list i
        taskid_counter := new_id + 1 }
    match tl.list new_id with
    | some _ => .error "Error: overwrote task id!"
    | none => .ok (t, tl1)

/-- From `task/mod.rs` (`TaskList::init_first_task`): build task 0, store 0
into `CURRENT_TASK`, and copy the hardware page-table register into its
arch state.  The source line `task_zero.runstate == RunState::RUNNING;` is
a comparison whose result is discarded, so no runstate assignment is
modelled here.  Insert task 0, failing if it already existed. -/
def init_first_task (tl : TaskList) (g : TaskGlobals) (hw_page_table : Nat) :
    Except String Task × TaskList × TaskGlobals :=
  let id_zero := 0
  let task_zero := Task.new id_zero
  let g1 := { g with current_task := id_zero }
  -- task_zero.runstate == RunState::RUNNING;  (no-op comparison in the source)
  let task_zero := { task_zero with
    arch_state := { task_zero.arch_state with page_table := hw_page_table } }
  let old := tl.list id_zero
  let tl1 : TaskList :=
    { tl with list := fun i => if i = id_zero then some task_zero else tl.list i }
  match old with
  | none => (.ok task_zero, tl1, g1)
  | some _ => (.error "WTF: task_zero already existed?!?", tl1, g1)

/-- Little-endian bytes of a 64-bit word, as laid down by the 8-byte store
`*(func_ptr as *mut usize) = func as usize` on x86-64. -/
def wordBytesLE (v : Nat) : List Nat :=
  [v % 256, v / 256 % 256, v / 65536 % 256, v / 16777216 % 256,
   v / 4294967296 % 256, v / 1099511627776 % 256,
   v / 281474976710656 % 256, v / 72057594037927936 % 256]

/-- Value of a little-endian byte list. -/
def wordDecodeLE (bs : List Nat) : Nat := bs.foldr (fun b acc => b + 256 * acc) 0

/-- From `task/mod.rs` (`TaskList::spawn`): read the current task's stored
page table, create a task, give it the parent's page table, build a 16 KiB
zeroed stack with the entry function pointer written at offset `len - 8`,
point the saved stack pointer at that slot (`stack_base` is the runtime
address of the buffer), hand the stack to the task and mark it RUNNABLE.
The two `expect`s of the source are modelled as errors. -/
def spawn (tl : TaskList) (g : TaskGlobals) (func : Nat) (stack_base : Nat) :
    Except String (Task × TaskList) :=
  match tl.list g.current_task with
  | none => .error "spawn(): get_current failed in getting curr_pgtbl"
  | some cur =>
    let curr_pgtbl := cur.arch_state.page_table
    match new_task tl with
    | .error _ => .error "couldnt create task in spawn()!"
    | .ok (t, tl1) =>
      let t := { t with arch_state := { t.arch_state with page_table := curr_pgtbl } }
      let stack : List Nat := List.replicate 16384 0
      let offset := stack.length - 8
      let stack := stack.take offset ++ wordBytesLE func
      let t := { t with arch_state := { t.arch_state with stack_ptr := stack_base + offset } }
      let t := { t with kstack := some stack }
      let t := { t with runstate := RunState.RUNNABLE }
      .ok (t, { tl1 with list := fun i => if i = t.id then some t else tl1.list i })

/-! Concrete states used by the evaluation theorems and witnesses. -/

/-- A page table with every entry unused. -/
def emptyPT : PT :=
  ⟨fun _ => Entry.unused, fun _ => Entry.unused, fun _ => Entry.unused, fun _ => Entry.unused⟩

/-- A fresh machine: empty tables, four free frames, P4 frame 7. -/
def freshSt : MachineState :=
  { pt := emptyPT, frames := [100, 101, 102, 103], nextFreePage := 64,
    mem := fun _ => 0, current_p4 := 7, fa_available := true }

/-- A one-page read/write handle over page 32 (flags PRESENT|WRITABLE). -/
def dcMp : MappedPages := ⟨7, .NotAllocated ⟨32, 32⟩, 3⟩

/-- A machine whose tables map exactly page 5 to frame 100 with flags 3. -/
def mappedSt : MachineState :=
  { pt :=
      { p4e := fun j => if j = 0 then ⟨101, 3⟩ else Entry.unused
        p3e := fun t => if t = (0, 0) then ⟨102, 3⟩ else Entry.unused
        p2e := fun t => if t = (0, 0, 0) then ⟨103, 3⟩ else Entry.unused
        p1e := fun t => if t = (0, 0, 0, 5) then ⟨100, 3⟩ else Entry.unused }
    frames := [], nextFreePage := 0, mem := fun _ => 0, current_p4 := 7,
    fa_available := true }

/-- The handle owning the single mapping of `mappedSt`. -/
def mappedMp : MappedPages := ⟨7, .NotAllocated ⟨5, 5⟩, 3⟩

/-- Machine used by the map/translate witness. -/
def c3St : MachineState :=
  { pt := emptyPT, frames := [300, 301, 302, 303], nextFreePage := 0,
    mem := fun _ => 0, current_p4 := 7, fa_available := true }

/-- Handle produced by mapping page 5 on `c3St`. -/
def c3Mp : MappedPages := ⟨7, .NotAllocated ⟨5, 5⟩, 3⟩

/-- State after mapping page 5 on `c3St`. -/
def c3St2 : MachineState := (map c3St 7 5 3).2

/-- A three-page handle over pages 16..18. -/
def mgA : MappedPages := ⟨7, .NotAllocated ⟨16, 18⟩, 3⟩

/-- A three-page handle over pages 19..21, contiguous with `mgA`. -/
def mgB : MappedPages := ⟨7, .NotAllocated ⟨19, 21⟩, 3⟩

/-- A read-only one-page handle (flags PRESENT only). -/
def roMp : MappedPages := ⟨7, .NotAllocated ⟨5, 5⟩, 1⟩

/-- An empty handle (empty page range). -/
def emptyMp : MappedPages := ⟨7, .NotAllocated PageRange.empty, 3⟩

/-- An empty task registry. -/
def tlEmpty : TaskList := ⟨fun _ => none, 1⟩

/-- Globals before boot: nonsense current task, lock free. -/
def gBoot : TaskGlobals := ⟨99, false⟩

/-- A bootstrapped current task with page table 777. -/
def w9cur : Task :=
  { Task.new 0 with runstate := RunState.RUNNING, arch_state := ⟨777, 0⟩ }

/-- A registry holding only `w9cur` at id 0. -/
def w9tl : TaskList := ⟨fun i => if i = 0 then some w9cur else none, 1⟩

/-- Globals with current task 0. -/
def w9g : TaskGlobals := ⟨0, false⟩

/-- The task returned by spawning entry 5 on `w9tl`. -/
def w9t : Task :=
  match spawn w9tl w9g 5 100000 with
  | .ok (t, _) => t
  | .error _ => Task.new 99

/-- The registry returned by spawning entry 5 on `w9tl`. -/
def w9tl2 : TaskList :=
  match spawn w9tl w9g 5 100000 with
  | .ok (_, tl) => tl
  | .error _ => w9tl

/-! Helper lemmas about the modelled table layer. -/

/-- A successful `create_p3` leaves a descendable P4 entry at `i4` and does
not touch the P2 or P1 layers. -/
theorem create_p3_ok {st st' : MachineState} {i4 top : Nat}
    (h : create_p3 st i4 top = .ok st') :
    nextOk (st'.pt.p4e i4) = true ∧ st'.pt.p2e = st.pt.p2e ∧ st'.pt.p1e = st.pt.p1e := by
  simp only [create_p3] at h
  by_cases hok : nextOk (st.pt.p4e i4) = true
  · rw [if_pos hok] at h
    cases h
    exact ⟨hok, rfl, rfl⟩
  · rw [if_neg hok] at h
    by_cases hh : is_huge (st.pt.p4e i4).fl = true
    · rw [if_pos hh] at h; exact absurd h (by simp)
    · rw [if_neg hh] at h
      cases hf : st.frames with
      | nil => rw [hf] at h; exact absurd h (by simp)
      | cons f rest =>
        rw [hf] at h
        dsimp only at h
        by_cases hok2 : nextOk (⟨f, top ||| PRESENT ||| WRITABLE⟩ : Entry) = true
        · rw [if_pos hok2] at h
          cases h
          exact ⟨by simpa using hok2, rfl, rfl⟩
        · rw [if_neg hok2] at h; exact absurd h (by simp)

/-- A successful `create_p2` leaves a descendable P3 entry at `(i4, i3)`
and does not touch the P4 or P1 layers. -/
theorem create_p2_ok {st st' : MachineState} {i4 i3 top : Nat}
    (h : create_p2 st i4 i3 top = .ok st') :
    nextOk (st'.pt.p3e (i4, i3)) = true ∧ st'.pt.p4e = st.pt.p4e ∧ st'.pt.p1e = st.pt.p1e := by
  simp only [create_p2] at h
  by_cases hok : nextOk (st.pt.p3e (i4, i3)) = true
  · rw [if_pos hok] at h
    cases h
    exact ⟨hok, rfl, rfl⟩
  · rw [if_neg hok] at h
    by_cases hh : is_huge (st.pt.p3e (i4, i3)).fl = true
    · rw [if_pos hh] at h; exact absurd h (by simp)
    · rw [if_neg hh] at h
      cases hf : st.frames with
      | nil => rw [hf] at h; exact absurd h (by simp)
      | cons f rest =>
        rw [hf] at h
        dsimp only at h
        by_cases hok2 : nextOk (⟨f, top ||| PRESENT ||| WRITABLE⟩ : Entry) = true
        · rw [if_pos hok2] at h
          cases h
          exact ⟨by simpa using hok2, rfl, rfl⟩
        · rw [if_neg hok2] at h; exact absurd h (by simp)

/-- A successful `create_p1` leaves a descendable P2 entry at `(i4, i3, i2)`
and does not touch the P4 or P3 layers. -/
theorem create_p1_ok {st st' : MachineState} {i4 i3 i2 top : Nat}
    (h : create_p1 st i4 i3 i2 top = .ok st') :
    nextOk (st'.pt.p2e (i4, i3, i2)) = true ∧ st'.pt.p4e = st.pt.p4e ∧
      st'.pt.p3e = st.pt.p3e := by
  simp only [create_p1] at h
  by_cases hok : nextOk (st.pt.p2e (i4, i3, i2)) = true
  · rw [if_pos hok] at h
    cases h
    exact ⟨hok, rfl, rfl⟩
  · rw [if_neg hok] at h
    by_cases hh : is_huge (st.pt.p2e (i4, i3, i2)).fl = true
    · rw [if_pos hh] at h; exact absurd h (by simp)
    · rw [if_neg hh] at h
      cases hf : st.frames with
      | nil => rw [hf] at h; exact absurd h (by simp)
      | cons f rest =>
        rw [hf] at h
        dsimp only at h
        by_cases hok2 : nextOk (⟨f, top ||| PRESENT ||| WRITABLE⟩ : Entry) = true
        · rw [if_pos hok2] at h
          cases h
          exact ⟨by simpa using hok2, rfl, rfl⟩
        · rw [if_neg hok2] at h; exact absurd h (by simp)

/-- The one-page range iterates as the singleton list. -/
theorem toList_single (p : Nat) : (⟨p, p⟩ : PageRange).toList = [p] := by
  have h : (⟨p, p⟩ : PageRange).size = 1 := by simp [PageRange.size]
  have h1 : List.range 1 = [0] := rfl
  simp [PageRange.toList, h, h1]

/-- Membership in the iteration list of a range. -/
theorem mem_toList {r : PageRange} {p : Nat} :
    p ∈ r.toList ↔ r.start ≤ p ∧ p < r.start + r.size := by
  simp only [PageRange.toList, List.mem_map, List.mem_range]
  constructor
  · rintro ⟨i, hi, rfl⟩; omega
  · rintro ⟨h1, h2⟩; exact ⟨p - r.start, by omega, by omega⟩

/-- Pages of a range stay within its bounds. -/
theorem mem_toList_le_stop {r : PageRange} {p : Nat} (h : p ∈ r.toList) :
    r.start ≤ p ∧ p ≤ r.stop := by
  rw [mem_toList] at h
  unfold PageRange.size at h
  omega

/-- Below `2^36` (the 48-bit canonical address space), the index path
determines the page number. -/
theorem pageTup_inj {a b : Nat} (ha : a < 2 ^ 36) (hb : b < 2 ^ 36)
    (h : pageTup a = pageTup b) : a = b := by
  unfold pageTup p4i p3i p2i p1i at h
  simp only [Prod.mk.injEq] at h
  omega

/-- C5: `A.merge(B)` succeeds exactly when the two handles share the P4
frame and the flags, B starts right after A ends, and both share the
allocated/not-allocated discriminant; on success the resulting range is
exactly `[A.start, B.stop]` with A's other fields kept (the source
`mem::forget`s B, so B's drop never runs, and `merge` touches no machine
state at all, as its purely functional type shows); on failure the error
carries B back unmodified. -/
theorem C5_merge_spec (a b : MappedPages) :
    ((∃ a2, merge a b = .ok a2) ↔
      (b.page_table_p4 = a.page_table_p4 ∧ b.flags = a.flags ∧
       b.range.start = a.range.stop + 1 ∧
       b.pages.is_allocated = a.pages.is_allocated)) ∧
    (∀ a2, merge a b = .ok a2 →
      a2.range = ⟨a.range.start, b.range.stop⟩ ∧ a2.flags = a.flags ∧
      a2.page_table_p4 = a.page_table_p4 ∧
      a2.pages.is_allocated = a.pages.is_allocated) ∧
    (∀ e b2, merge a b = .error (e, b2) → b2 = b) := by
  by_cases h1 : b.page_table_p4 = a.page_table_p4
  case neg =>
    have hm : merge a b = .error ("mappings were mapped with different page tables", b) := by
      simp only [merge]
      rw [if_pos h1]
    refine ⟨⟨?_, ?_⟩, ?_, ?_⟩
    · rintro ⟨a2, ha2⟩; rw [hm] at ha2; exact absurd ha2 (by simp)
    · rintro ⟨hc1, -, -, -⟩; exact absurd hc1 h1
    · intro a2 ha2; rw [hm] at ha2; exact absurd ha2 (by simp)
    · intro e b2 hb2
      rw [hm] at hb2
      simp only [Except.error.injEq, Prod.mk.injEq] at hb2
      exact hb2.2.symm
  case pos =>
  by_cases h2 : b.flags = a.flags
  case neg =>
    have hm : merge a b = .error ("mappings were mapped with different flags", b) := by
      simp only [merge]
      rw [if_neg (not_not_intro h1), if_pos h2]
    refine ⟨⟨?_, ?_⟩, ?_, ?_⟩
    · rintro ⟨a2, ha2⟩; rw [hm] at ha2; exact absurd ha2 (by simp)
    · rintro ⟨-, hc2, -, -⟩; exact absurd hc2 h2
    · intro a2 ha2; rw [hm] at ha2; exact absurd ha2 (by simp)
    · intro e b2 hb2
      rw [hm] at hb2
      simp only [Except.error.injEq, Prod.mk.injEq] at hb2
      exact hb2.2.symm
  case pos =>
  by_cases h3 : b.range.start = a.range.stop + 1
  case neg =>
    have hm : merge a b = .error ("mappings were not contiguous in virtual memory", b) := by
      simp only [merge]
      rw [if_neg (not_not_intro h1), if_neg (not_not_intro h2), if_pos h3]
    refine ⟨⟨?_, ?_⟩, ?_, ?_⟩
    · rintro ⟨a2, ha2⟩; rw [hm] at ha2; exact absurd ha2 (by simp)
    · rintro ⟨-, -, hc3, -⟩; exact absurd hc3 h3
    · intro a2 ha2; rw [hm] at ha2; exact absurd ha2 (by simp)
    · intro e b2 hb2
      rw [hm] at hb2
      simp only [Except.error.injEq, Prod.mk.injEq] at hb2
      exact hb2.2.symm
  case pos =>
  by_cases h4 : b.pages.is_allocated = a.pages.is_allocated
  case neg =>
    have hm : merge a b =
        .error ("some mappings were mapped to AllocatedPages, while others were not", b) := by
      simp only [merge]
      rw [if_neg (not_not_intro h1), if_neg (not_not_intro h2), if_neg (not_not_intro h3),
          if_pos h4]
    refine ⟨⟨?_, ?_⟩, ?_, ?_⟩
    · rintro ⟨a2, ha2⟩; rw [hm] at ha2; exact absurd ha2 (by simp)
    · rintro ⟨-, -, -, hc4⟩; exact absurd hc4 h4
    · intro a2 ha2; rw [hm] at ha2; exact absurd ha2 (by simp)
    · intro e b2 hb2
      rw [hm] at hb2
      simp only [Except.error.injEq, Prod.mk.injEq] at hb2
      exact hb2.2.symm
  case pos =>
  have hm : merge a b = .ok { a with pages :=
      if a.pages.is_allocated then MaybeAllocatedPages.Allocated ⟨⟨a.range.start, b.range.stop⟩⟩
      else MaybeAllocatedPages.NotAllocated ⟨a.range.start, b.range.stop⟩ } := by
    simp only [merge]
    rw [if_neg (not_not_intro h1), if_neg (not_not_intro h2), if_neg (not_not_intro h3),
        if_neg (not_not_intro h4)]
  refine ⟨⟨fun _ => ⟨h1, h2, h3, h4⟩, fun _ => ⟨_, hm⟩⟩, ?_, ?_⟩
  · intro a2 ha2
    rw [hm] at ha2
    injection ha2 with hv
    subst hv
    by_cases hA : a.pages.is_allocated
    · rw [if_pos hA]
      exact ⟨rfl, rfl, rfl, hA.symm⟩
    · rw [if_neg hA]
      refine ⟨rfl, rfl, rfl, ?_⟩
      simp only [Bool.not_eq_true] at hA
      exact hA.symm
  · intro e b2 hb2
    rw [hm] at hb2
    exact absurd hb2 (by simp)

/-- Witness for C5: merging the two concrete contiguous handles succeeds. -/
theorem C5_merge_spec_witness : ∃ a2, merge mgA mgB = .ok a2 :=
  (C5_merge_spec mgA mgB).1.mpr (by decide)

/-- C7: when the page count differs from the frame count,
`internal_map_to` (and `map_allocated_pages_to`, which passes both ranges
through) fails with the page-count error before touching anything: the
returned machine state is the input state itself, so the page tables are
unchanged.  The source error string carries a `map_to_internal(): ` prefix
before the words quoted by the specification, as the last conjunct records.
(`map_frames` always constructs a page range whose size equals the frame
count, so it can never reach this error.) -/
theorem C7_count_mismatch (st : MachineState) (tp4 : Nat) (pages frames : PageRange)
    (flags : Nat) (h : pages.size ≠ frames.size) :
    internal_map_to st tp4 pages frames flags =
      (.error "map_to_internal(): page count must equal frame count", st) ∧
    map_allocated_pages_to st tp4 ⟨pages⟩ frames flags =
      (.error "map_to_internal(): page count must equal frame count", st) ∧
    "map_to_internal(): " ++ "page count must equal frame count" =
      "map_to_internal(): page count must equal frame count" := by
  have h1 : internal_map_to st tp4 pages frames flags =
      (.error "map_to_internal(): page count must equal frame count", st) := by
    simp only [internal_map_to]
    rw [if_pos h]
  refine ⟨h1, ?_, rfl⟩
  simp only [map_allocated_pages_to]
  rw [h1]

/-- Witness for C7: two pages against three frames fail with the
page-count error and the state is untouched. -/
theorem C7_count_mismatch_witness :
    internal_map_to freshSt 7 ⟨1, 2⟩ ⟨10, 12⟩ 3 =
      (.error "map_to_internal(): page count must equal frame count", freshSt) :=
  (C7_count_mismatch freshSt 7 ⟨1, 2⟩ ⟨10, 12⟩ 3 (by decide)).1

/-- C8: on a handle whose flags lack WRITABLE, `as_type_mut` (any offset
and type size) and `as_slice_mut` (any byte offset, length and element
size) fail with the not-writable error and return the handle and the whole
machine state unchanged.  The source error strings carry the function name
before the words quoted by the specification, as the last two conjuncts
record. -/
theorem C8_not_writable (st : MachineState) (mp : MappedPages)
    (sizeT offset byte_offset length : Nat)
    (h : is_writable mp.flags = false) :
    as_type_mut st mp sizeT offset =
      (.error "as_type_mut(): MappedPages were not writable", mp, st) ∧
    as_slice_mut st mp sizeT byte_offset length =
      (.error "as_slice_mut(): MappedPages were not writable", mp, st) ∧
    "as_type_mut(): " ++ "MappedPages were not writable" =
      "as_type_mut(): MappedPages were not writable" ∧
    "as_slice_mut(): " ++ "MappedPages were not writable" =
      "as_slice_mut(): MappedPages were not writable" := by
  refine ⟨?_, ?_, rfl, rfl⟩
  · simp only [as_type_mut]
    rw [if_pos (by simp [h])]
  · simp only [as_slice_mut]
    rw [if_pos (by simp [h])]

/-- Witness for C8: the read-only handle rejects a mutable typed view. -/
theorem C8_not_writable_witness :
    as_type_mut freshSt roMp 8 0 =
      (.error "as_type_mut(): MappedPages were not writable", roMp, freshSt) :=
  (C8_not_writable freshSt roMp 8 0 0 1 (by decide)).1

/-- C10: `remap` on a handle with an empty page range returns `Ok(())`
immediately: the machine state (hence every page-table entry) and the
handle (hence its stored flags) are returned unchanged, even when the
requested flags differ from the stored ones. -/
theorem C10_remap_empty (st : MachineState) (mp : MappedPages) (f : Nat)
    (h : mp.size_in_pages = 0) :
    remap st mp f = (.ok (), mp, st) := by
  simp only [remap]
  rw [if_pos h]

/-- Witness for C10: remapping the empty handle to different flags is a
no-op that keeps the original flags. -/
theorem C10_remap_empty_witness :
    remap freshSt emptyMp 9 = (.ok (), emptyMp, freshSt) ∧ emptyMp.flags = 3 :=
  ⟨C10_remap_empty freshSt emptyMp 9 (by decide), rfl⟩

/-- C1 (failing evaluation): `deep_copy` with requested non-writable flags
`PRESENT` (= 1) on a one-page handle succeeds but returns a handle whose
flags — and whose single installed P1 entry flags — are
`PRESENT | WRITABLE` (= 3), not the requested flags.  The source computes
`needs_remapping = new_flags.is_writable()` (inverted), so the remap that
should strip the forced WRITABLE bit is skipped exactly when it would be
needed, contradicting the `// we must temporarily map the new pages as
Writable` comment and specification step 4 of deep-copy. -/
theorem C1_deep_copy_keeps_writable :
    ((deep_copy freshSt 7 dcMp (some PRESENT)).1.map MappedPages.flags
        = .ok (PRESENT ||| WRITABLE)) ∧
    (((deep_copy freshSt 7 dcMp (some PRESENT)).2.pt.p1e (pageTup 64)).fl
        = PRESENT ||| WRITABLE) ∧
    PRESENT ||| WRITABLE ≠ PRESENT :=
  ⟨rfl, rfl, by decide⟩

/-- C2 (failing evaluation): the first `init_first_task` call on an empty
registry stores 0 into the current-task atomic and copies the hardware
page-table register (here 4096) into task 0's arch state, but the inserted
task 0 is left in `INITING`, not `RUNNING`: source line 188 reads
`task_zero.runstate == RunState::RUNNING;`, a comparison whose result is
discarded instead of an assignment. -/
theorem C2_init_first_task_eval :
    ((init_first_task tlEmpty gBoot 4096).1.map Task.runstate = .ok RunState.INITING) ∧
    RunState.INITING ≠ RunState.RUNNING ∧
    ((init_first_task tlEmpty gBoot 4096).2.2.current_task = 0) ∧
    ((init_first_task tlEmpty gBoot 4096).1.map (fun t => t.arch_state.page_table)
        = .ok 4096) ∧
    (((init_first_task tlEmpty gBoot 4096).2.1.list 0).map Task.runstate
        = some RunState.INITING) :=
  ⟨rfl, by decide, rfl, rfl, rfl⟩

/-- C6: with `next` neither BLOCKED nor RUNNING, `context_switch` sets the
current task RUNNABLE and `next` RUNNING, publishes `next.id` in the
current-task atomic, leaves the switch lock released (false), and its
event trace places the lock release strictly before the register swap. -/
theorem C6_context_switch (current next : Task) (g : TaskGlobals)
    (hb : next.runstate ≠ RunState.BLOCKED) (hr : next.runstate ≠ RunState.RUNNING) :
    context_switch current next g =
      some ({ current with runstate := RunState.RUNNABLE },
            { next with runstate := RunState.RUNNING },
            { g with current_task := next.id, context_switch_lock := false },
            [SwitchEvent.acquireLock, SwitchEvent.storeCurrentTask next.id,
             SwitchEvent.releaseLock, SwitchEvent.switchRegisters]) ∧
    (∃ l1 l2 l3 : List SwitchEvent,
      [SwitchEvent.acquireLock, SwitchEvent.storeCurrentTask next.id,
       SwitchEvent.releaseLock, SwitchEvent.switchRegisters] =
        l1 ++ SwitchEvent.releaseLock :: l2 ++ SwitchEvent.switchRegisters :: l3) := by
  constructor
  · simp only [context_switch]
    rw [if_neg hb, if_neg hr]
  · exact ⟨[SwitchEvent.acquireLock, SwitchEvent.storeCurrentTask next.id], [], [], rfl⟩

/-- Task 0 of the context-switch witness, currently RUNNING. -/
def w6t0 : Task := { Task.new 0 with runstate := RunState.RUNNING }

/-- Task 1 of the context-switch witness, RUNNABLE. -/
def w6t1 : Task := { Task.new 1 with runstate := RunState.RUNNABLE }

/-- Globals of the context-switch witness. -/
def w6g : TaskGlobals := ⟨0, false⟩

/-- Witness for C6: switching from the running task 0 to the runnable
task 1 behaves as stated. -/
theorem C6_context_switch_witness :
    context_switch w6t0 w6t1 w6g =
      some ({ w6t0 with runstate := RunState.RUNNABLE },
            { w6t1 with runstate := RunState.RUNNING },
            { w6g with current_task := w6t1.id, context_switch_lock := false },
            [SwitchEvent.acquireLock, SwitchEvent.storeCurrentTask w6t1.id,
             SwitchEvent.releaseLock, SwitchEvent.switchRegisters]) ∧
    (∃ l1 l2 l3 : List SwitchEvent,
      [SwitchEvent.acquireLock, SwitchEvent.storeCurrentTask w6t1.id,
       SwitchEvent.releaseLock, SwitchEvent.switchRegisters] =
        l1 ++ SwitchEvent.releaseLock :: l2 ++ SwitchEvent.switchRegisters :: l3) :=
  C6_context_switch w6t0 w6t1 w6g (by decide) (by decide)

/-- Little-endian byte decode inverts the byte encoding modulo 2^64. -/
theorem wordDecodeLE_wordBytesLE (v : Nat) :
    wordDecodeLE (wordBytesLE v) = v % 2 ^ 64 := by
  simp only [wordBytesLE, wordDecodeLE, List.foldr_cons, List.foldr_nil]
  omega

/-- C9: a successful `spawn(f)` returns a task that is RUNNABLE, owns a
16384-byte kernel stack whose topmost 8 bytes (at offset `len - 8`) hold
the little-endian function-pointer value of `f`, whose saved stack pointer
is the address of that topmost slot, and whose arch-state page-table field
equals the current task's. -/
theorem C9_spawn (tl : TaskList) (g : TaskGlobals) (func stack_base : Nat)
    (cur t : Task) (tl2 : TaskList)
    (hcur : tl.list g.current_task = some cur)
    (hs : spawn tl g func stack_base = .ok (t, tl2))
    (hf : func < 2 ^ 64) :
    t.runstate = RunState.RUNNABLE ∧
    ∃ s, t.kstack = some s ∧ s.length = 16384 ∧
      s.drop (16384 - 8) = wordBytesLE func ∧
      wordDecodeLE (s.drop (16384 - 8)) = func ∧
      t.arch_state.stack_ptr = stack_base + (16384 - 8) ∧
      t.arch_state.page_table = cur.arch_state.page_table := by
  simp only [spawn] at hs
  rw [hcur] at hs
  cases hnt : new_task tl with
  | error e => rw [hnt] at hs; exact absurd hs (by simp)
  | ok pr =>
    obtain ⟨t0, tl1⟩ := pr
    rw [hnt] at hs
    dsimp only at hs
    injection hs with hpair
    injection hpair with ht htl
    subst ht
    have h1 : (List.replicate 16384 (0:Nat)).take ((List.replicate 16384 (0:Nat)).length - 8)
        = List.replicate 16376 0 := by
      rw [List.take_replicate, List.length_replicate]
      rw [show min (16384 - 8) 16384 = 16376 from by omega]
    have hlen76 : (List.replicate 16376 (0:Nat)).length = 16376 := by
      rw [List.length_replicate]
    have hdrop : (((List.replicate 16384 (0:Nat)).take
        ((List.replicate 16384 (0:Nat)).length - 8)) ++ wordBytesLE func).drop (16384 - 8)
        = wordBytesLE func := by
      have h2 := List.drop_left (List.replicate 16376 (0:Nat)) (wordBytesLE func)
      rw [hlen76] at h2
      rw [h1, show (16384 - 8 : Nat) = 16376 from by omega]
      exact h2
    refine ⟨rfl, _, rfl, ?_, hdrop, ?_, ?_, rfl⟩
    · simp only [List.length_append, List.length_take, List.length_replicate, wordBytesLE,
        List.length_cons, List.length_nil]
      omega
    · rw [hdrop, wordDecodeLE_wordBytesLE]
      exact Nat.mod_eq_of_lt hf
    · simp only [List.length_replicate]

/-- Witness for C9: spawning entry 5 from the bootstrapped registry. -/
theorem C9_spawn_witness :
    w9t.runstate = RunState.RUNNABLE ∧
    ∃ s, w9t.kstack = some s ∧ s.length = 16384 ∧
      s.drop (16384 - 8) = wordBytesLE 5 ∧
      wordDecodeLE (s.drop (16384 - 8)) = 5 ∧
      w9t.arch_state.stack_ptr = 100000 + (16384 - 8) ∧
      w9t.arch_state.page_table = w9cur.arch_state.page_table :=
  C9_spawn w9tl w9g 5 100000 w9cur w9t w9tl2 rfl rfl (by decide)

/-- An entry written with `flags | PRESENT` is present. -/
theorem entryPresent_or_PRESENT (fr f : Nat) :
    entryPresent ⟨fr, f ||| PRESENT⟩ = true := by
  simp [entryPresent, PRESENT, Nat.testBit_lor]

/-- A descendable entry is present and not huge. -/
theorem nextOk_elim {e : Entry} (h : nextOk e = true) :
    entryPresent e = true ∧ is_huge e.fl = false := by
  simp only [nextOk, Bool.and_eq_true, Bool.not_eq_true'] at h
  exact h

/-- For a range inside the 48-bit canonical space, distinct pages of the
range have distinct index paths. -/
theorem toList_pairwise_tup (r : PageRange) (h : r.stop < 2 ^ 36) :
    r.toList.Pairwise (fun a b => pageTup a ≠ pageTup b) := by
  rw [List.pairwise_iff_get]
  intro i j hij
  have hi : r.toList.get i = r.start + i.val := by
    simp [PageRange.toList]
  have hj : r.toList.get j = r.start + j.val := by
    simp [PageRange.toList]
  rw [hi, hj]
  intro hEq
  have hlen : r.toList.length = r.size := by simp [PageRange.toList]
  have hjlt : (j : Nat) < r.size := by rw [← hlen]; exact j.isLt
  have hijv : (i : Nat) < (j : Nat) := hij
  unfold PageRange.size at hjlt
  have := pageTup_inj (a := r.start + i.val) (b := r.start + j.val)
    (by omega) (by omega) hEq
  omega

/-- Effect of the unmap loop: upper-level entries are untouched and the P1
entries of exactly the listed index paths are cleared, provided every page
of the list can be walked, every listed P1 entry is present, and the index
paths are pairwise distinct. -/
theorem unmapLoop_spec (l : List Nat) :
    ∀ st : MachineState,
      (∀ p ∈ l, walkOk st.pt p = true ∧ entryPresent (st.pt.p1e (pageTup p)) = true) →
      l.Pairwise (fun a b => pageTup a ≠ pageTup b) →
      (unmapLoop st l).2.pt.p4e = st.pt.p4e ∧
      (unmapLoop st l).2.pt.p3e = st.pt.p3e ∧
      (unmapLoop st l).2.pt.p2e = st.pt.p2e ∧
      ∀ t, (unmapLoop st l).2.pt.p1e t =
        if t ∈ l.map pageTup then Entry.unused else st.pt.p1e t := by
  induction l with
  | nil =>
    intro st _ _
    exact ⟨rfl, rfl, rfl, fun t => by simp [unmapLoop]⟩
  | cons p rest ih =>
    intro st hall hpw
    obtain ⟨hw, hpres⟩ := hall p (List.mem_cons_self p rest)
    have hstep : unmapLoop st (p :: rest)
        = unmapLoop (setP1 st (pageTup p) Entry.unused) rest := by
      simp only [unmapLoop]
      rw [if_pos hw]
      rw [show pointed_frame (st.pt.p1e (pageTup p))
            = some (st.pt.p1e (pageTup p)).frame from by simp [pointed_frame, hpres]]
    cases hpw with
    | cons hhead htail =>
      have hall' : ∀ q ∈ rest,
          walkOk (setP1 st (pageTup p) Entry.unused).pt q = true ∧
          entryPresent ((setP1 st (pageTup p) Entry.unused).pt.p1e (pageTup q)) = true := by
        intro q hq
        obtain ⟨hwq, hpq⟩ := hall q (List.mem_cons_of_mem p hq)
        refine ⟨hwq, ?_⟩
        have hne : pageTup p ≠ pageTup q := hhead q hq
        show entryPresent
            (if pageTup q = pageTup p then Entry.unused else st.pt.p1e (pageTup q)) = true
        rw [if_neg (fun hEq => hne hEq.symm)]
        exact hpq
      obtain ⟨ih4, ih3, ih2, ih1⟩ := ih (setP1 st (pageTup p) Entry.unused) hall' htail
      rw [hstep]
      refine ⟨ih4, ih3, ih2, fun t => ?_⟩
      rw [ih1 t]
      by_cases h1 : t ∈ rest.map pageTup
      · rw [if_pos h1, if_pos (by simp [h1])]
      · rw [if_neg h1]
        by_cases h2 : t = pageTup p
        · subst h2
          show (if pageTup p = pageTup p then Entry.unused else _) = _
          rw [if_pos rfl, if_pos (by simp)]
        · show (if t = pageTup p then _ else _) = _
          rw [if_neg h2, if_neg (by simp [List.mem_cons, h1, h2])]

/-- C3: whenever `map(p, flags)` succeeds on the mapper, `translate_page(p)`
on the resulting tables returns some frame, and for every offset `k` in
`[0, 4096)`, `translate(p.start_address + k)` returns that frame's start
address plus `k`. -/
theorem C3_map_translates {st st2 : MachineState} {tp4 p flags : Nat} {mp : MappedPages}
    (h : map st tp4 p flags = (.ok mp, st2)) :
    ∃ fr, translate_page st2.pt p = some fr ∧
      ∀ k, k < 4096 → translate st2.pt (page_start_address p + k) =
        some (frame_start_address fr + k) := by
  simp only [map, internal_map, toList_single] at h
  rcases hl : internal_map_loop st [p] flags (clearNX flags) with ⟨res, stx⟩
  rw [hl] at h
  cases res with
  | error e =>
    dsimp only at h
    exact absurd h (by simp)
  | ok u =>
    cases u
    dsimp only at h
    rw [Prod.mk.injEq] at h
    obtain ⟨-, hst⟩ := h
    subst hst
    simp only [internal_map_loop] at hl
    cases hA : allocate_frame st with
    | none => rw [hA] at hl; dsimp only at hl; exact absurd hl (by simp)
    | some pr =>
      obtain ⟨frame, st1⟩ := pr
      rw [hA] at hl
      dsimp only at hl
      cases h3 : create_p3 st1 (p4i p) (clearNX flags) with
      | error e => rw [h3] at hl; dsimp only at hl; exact absurd hl (by simp)
      | ok stB =>
        rw [h3] at hl
        dsimp only at hl
        cases h2c : create_p2 stB (p4i p) (p3i p) (clearNX flags) with
        | error e => rw [h2c] at hl; dsimp only at hl; exact absurd hl (by simp)
        | ok stC =>
          rw [h2c] at hl
          dsimp only at hl
          cases h1c : create_p1 stC (p4i p) (p3i p) (p2i p) (clearNX flags) with
          | error e => rw [h1c] at hl; dsimp only at hl; exact absurd hl (by simp)
          | ok stD =>
            rw [h1c] at hl
            dsimp only at hl
            by_cases hu : (stD.pt.p1e (pageTup p)).is_unused = true
            case neg =>
              rw [if_neg hu] at hl
              exact absurd hl (by simp)
            case pos =>
              rw [if_pos hu] at hl
              rw [Prod.mk.injEq] at hl
              obtain ⟨-, hstx⟩ := hl
              subst hstx
              obtain ⟨hB4, -, -⟩ := create_p3_ok h3
              obtain ⟨hC3, hCp4, -⟩ := create_p2_ok h2c
              obtain ⟨hD2, hDp4, hDp3⟩ := create_p1_ok h1c
              have hfin4 : nextOk ((setP1 stD (pageTup p)
                  ⟨frame, flags ||| PRESENT⟩).pt.p4e (p4i p)) = true := by
                show nextOk (stD.pt.p4e (p4i p)) = true
                rw [hDp4, hCp4]; exact hB4
              have hfin3 : nextOk ((setP1 stD (pageTup p)
                  ⟨frame, flags ||| PRESENT⟩).pt.p3e (p4i p, p3i p)) = true := by
                show nextOk (stD.pt.p3e (p4i p, p3i p)) = true
                rw [hDp3]; exact hC3
              have hfin2 : nextOk ((setP1 stD (pageTup p)
                  ⟨frame, flags ||| PRESENT⟩).pt.p2e (p4i p, p3i p, p2i p)) = true := hD2
              have hfin1 : (setP1 stD (pageTup p)
                  ⟨frame, flags ||| PRESENT⟩).pt.p1e (p4i p, p3i p, p2i p, p1i p)
                  = ⟨frame, flags ||| PRESENT⟩ := by
                show (if ((p4i p, p3i p, p2i p, p1i p) : Nat × Nat × Nat × Nat) = pageTup p
                    then (⟨frame, flags ||| PRESENT⟩ : Entry) else stD.pt.p1e _) = _
                rw [if_pos (show ((p4i p, p3i p, p2i p, p1i p) : Nat × Nat × Nat × Nat)
                  = pageTup p from rfl)]
              have htp : translate_page (setP1 stD (pageTup p)
                  ⟨frame, flags ||| PRESENT⟩).pt p = some frame := by
                simp only [translate_page, hfin4, hfin3, hfin2, hfin1, Bool.and_self,
                  if_true, pointed_frame, entryPresent_or_PRESENT]
              refine ⟨frame, htp, fun k hk => ?_⟩
              have hdiv : (page_start_address p + k) / 4096 = p := by
                simp only [page_start_address]; omega
              have hmod : (page_start_address p + k) % 4096 = k := by
                simp only [page_start_address]; omega
              simp only [translate, hdiv, hmod, htp, Option.map_some']

/-- Witness for C3: mapping page 5 with flags 3 on a fresh machine. -/
theorem C3_map_translates_witness :
    ∃ fr, translate_page c3St2.pt 5 = some fr ∧
      ∀ k, k < 4096 → translate c3St2.pt (page_start_address 5 + k) =
        some (frame_start_address fr + k) :=
  @C3_map_translates c3St c3St2 7 5 3 c3Mp rfl

/-- C4: dropping a non-empty handle whose P4 frame matches the installed
one, while the frame allocator is obtainable, unmaps its whole range: every
page of the range afterwards translates to `None`.  The hypotheses `hcanon`
and `hinv` are the `MappedPages` data-model invariant of the specification:
the range lies in the 48-bit canonical space and every page of the range
has present, non-huge intermediate entries and a present P1 entry. -/
theorem C4_drop_translate_none {st : MachineState} {mp : MappedPages}
    (h0 : mp.size_in_pages ≠ 0)
    (h1 : st.current_p4 = mp.page_table_p4)
    (h2 : st.fa_available = true)
    (hcanon : mp.range.stop < 2 ^ 36)
    (hinv : ∀ p ∈ mp.range.toList,
      walkOk st.pt p = true ∧ entryPresent (st.pt.p1e (pageTup p)) = true) :
    ∀ p ∈ mp.range.toList, translate_page (dropMappedPages st mp).pt p = none := by
  intro p hp
  have hdrop : dropMappedPages st mp = (unmapLoop st mp.range.toList).2 := by
    simp only [dropMappedPages]
    rw [if_neg h0, if_neg (by rw [h1]; exact fun hne => hne rfl),
        if_neg (by rw [h2]; simp)]
    simp only [unmap]
    rw [if_neg h0]
  obtain ⟨f4, f3, f2, f1⟩ :=
    unmapLoop_spec mp.range.toList st hinv (toList_pairwise_tup mp.range hcanon)
  obtain ⟨hwp, -⟩ := hinv p hp
  have hsplit := hwp
  simp only [walkOk, Bool.and_eq_true] at hsplit
  obtain ⟨⟨hw4, hw3⟩, hw2⟩ := hsplit
  obtain ⟨-, hh3⟩ := nextOk_elim hw3
  obtain ⟨-, hh2⟩ := nextOk_elim hw2
  have hp1 : (unmapLoop st mp.range.toList).2.pt.p1e (p4i p, p3i p, p2i p, p1i p)
      = Entry.unused := by
    rw [f1, if_pos (show ((p4i p, p3i p, p2i p, p1i p) : Nat × Nat × Nat × Nat)
        ∈ mp.range.toList.map pageTup from List.mem_map_of_mem pageTup hp)]
  rw [hdrop]
  simp only [translate_page, f4, f3, f2, hp1]
  simp [hw4, hw3, hw2, pointed_frame, entryPresent, Entry.unused, hh3, hh2]

/-- Witness for C4: dropping the one-page handle of the concretely mapped
machine leaves its page 5 untranslatable. -/
theorem C4_drop_translate_none_witness :
    translate_page (dropMappedPages mappedSt mappedMp).pt 5 = none :=
  C4_drop_translate_none (by decide) (by decide) (by decide) (by decide) (by decide)
    5 (by decide)

end Theseus
